import Mathlib

/-!
# Verification of the Pomodoro session engine

Shallow embedding of the Pomodoro repository's core logic:

* `src/PomodoroGUIApp/PomodoroCore.py` — the GUI variant's `PomodoroEngine`
  class (`reset`, `start`, `toggle_pause`, `skip`, `tick`, `_advance_session`,
  `snapshot`) and the pure display helper `format_hhmmss`, together with the
  duration sanity check performed by `load_config`.
* `src/pomodoro.py` — the terminal variant `Pomodoro`: the session-kind
  selection of `session_real_time` and `which_rotation`.

Python integers are modelled as `Int`; the engine's fractional accumulator
`_acc` (a Python float fed with elapsed wall-clock deltas) is modelled as `ℚ`.
All `%` occurrences in the engine divide by `long_break_every`, which is
positive in every property considered here, so Lean's `Int.emod` (used by `%`)
agrees with Python's `%` at every evaluation in scope.
-/

namespace Pomodoro

/-- `class Mode(Enum)` from PomodoroCore.py: WORK, SHORT_BREAK, LONG_BREAK. -/
inductive Mode where
  | WORK
  | SHORT_BREAK
  | LONG_BREAK
deriving DecidableEq, Repr

/-- `@dataclass Snapshot`: mode, remaining, paused, work_sessions_done. -/
structure Snapshot where
  mode : Mode
  remaining : Int
  paused : Bool
  work_sessions_done : Int
deriving DecidableEq, Repr

/-- The mutable attributes of a `PomodoroEngine` object: the four construction
parameters (`self.work_secs`, `self.short_break_secs`, `self.long_break_secs`,
`self.long_break_every`) and the countdown state set by `reset`
(`self.mode`, `self.remaining`, `self.paused`, `self.work_sessions_done`,
`self._acc`).  The `on_change` callback is pure notification (it receives a
snapshot and never writes back), so it carries no state. -/
structure EngineState where
  work_secs : Int
  short_break_secs : Int
  long_break_secs : Int
  long_break_every : Int
  mode : Mode
  remaining : Int
  paused : Bool
  work_sessions_done : Int
  acc : ℚ
deriving DecidableEq, Repr

/-- `PomodoroEngine.reset`: mode=WORK, remaining=work_secs, paused=True,
work_sessions_done=0, _acc=0.0 (then emits a snapshot, which does not change
state). -/
def reset (st : EngineState) : EngineState :=
  { st with
    mode := Mode.WORK
    remaining := st.work_secs
    paused := true
    work_sessions_done := 0
    acc := 0 }

/-- `PomodoroEngine.__init__`: stores the four integer parameters unvalidated
and calls `reset()`.  Construction is total — there is no validation and no
failure path in the constructor.  (The countdown fields before the `reset()`
call do not exist yet in Python; `reset` overwrites every one of them, so the
placeholder values below are irrelevant.) -/
def mkEngine (work_secs short_break_secs long_break_secs long_break_every : Int) :
    EngineState :=
  reset
    { work_secs := work_secs
      short_break_secs := short_break_secs
      long_break_secs := long_break_secs
      long_break_every := long_break_every
      mode := Mode.WORK
      remaining := 0
      paused := true
      work_sessions_done := 0
      acc := 0 }

/-- `PomodoroEngine.start`: paused = False. -/
def start (st : EngineState) : EngineState :=
  { st with paused := false }

/-- `PomodoroEngine.toggle_pause`: paused = not paused. -/
def toggle_pause (st : EngineState) : EngineState :=
  { st with paused := !st.paused }

/-- `PomodoroEngine._advance_session`: from WORK, increment
work_sessions_done and move to LONG_BREAK (when the count is a multiple of
long_break_every) or SHORT_BREAK, loading the corresponding duration;
from either break, move back to WORK with remaining = work_secs. -/
def advance_session (st : EngineState) : EngineState :=
  if st.mode = Mode.WORK then
    let n := st.work_sessions_done + 1
    if n % st.long_break_every = 0 then
      { st with mode := Mode.LONG_BREAK, remaining := st.long_break_secs,
                work_sessions_done := n }
    else
      { st with mode := Mode.SHORT_BREAK, remaining := st.short_break_secs,
                work_sessions_done := n }
  else
    { st with mode := Mode.WORK, remaining := st.work_secs }

/-- `PomodoroEngine.skip`: advance the session (then emit). -/
def skip (st : EngineState) : EngineState :=
  advance_session st

/-- One iteration of the body of the `while self._acc >= 1.0` loop in
`PomodoroEngine.tick`, apart from the accumulator update: consume one whole
second — decrement `remaining` when it is positive, otherwise advance the
session. -/
def stepSecond (st : EngineState) : EngineState :=
  if st.remaining > 0 then { st with remaining := st.remaining - 1 }
  else advance_session st

/-- `n` iterations of `stepSecond` (the loop body never reads `_acc`). -/
def tickSteps : Nat → EngineState → EngineState
  | 0, st => st
  | n + 1, st => tickSteps n (stepSecond st)

/-- `PomodoroEngine.tick(dt)`: return unchanged when paused; otherwise add
`dt` to the accumulator and run the `while self._acc >= 1.0` loop.  Each loop
iteration subtracts 1.0 from the accumulator and consumes one second, so the
loop runs exactly `⌊_acc + dt⌋` times (zero times when `_acc + dt < 1`) and
leaves `_acc + dt - ⌊_acc + dt⌋` in the accumulator. -/
def tick (st : EngineState) (dt : ℚ) : EngineState :=
  if st.paused then st
  else
    let a := st.acc + dt
    let n := (⌊a⌋).toNat
    { tickSteps n st with acc := a - n }

/-- `PomodoroEngine.snapshot`: read-only copy of the observable state. -/
def snapshot (st : EngineState) : Snapshot :=
  { mode := st.mode
    remaining := st.remaining
    paused := st.paused
    work_sessions_done := st.work_sessions_done }

/-- The duration sanity check of `load_config` (app.py lines 53-55): each of
`work_minutes`, `short_break_minutes`, `long_break_minutes`,
`long_break_every` must be a positive int, otherwise `ValueError` is raised.
The proposition holds exactly when the check passes. -/
def config_durations_ok (work short long every : Int) : Prop :=
  0 < work ∧ 0 < short ∧ 0 < long ∧ 0 < every

instance (work short long every : Int) :
    Decidable (config_durations_ok work short long every) :=
  inferInstanceAs (Decidable (0 < work ∧ 0 < short ∧ 0 < long ∧ 0 < every))

/-- The engine operations a front-end can invoke, as called out in the spec:
`reset`, `start`, `togglePause`, `skip` and `advanceClock dt`. -/
inductive Op where
  | reset
  | start
  | toggle_pause
  | skip
  | tick (dt : ℚ)

/-- Apply one front-end operation to the engine state. -/
def applyOp (st : EngineState) : Op → EngineState
  | Op.reset => reset st
  | Op.start => start st
  | Op.toggle_pause => toggle_pause st
  | Op.skip => skip st
  | Op.tick dt => tick st dt

/-- Run a finite sequence of operations, left to right. -/
def run (st : EngineState) (ops : List Op) : EngineState :=
  ops.foldl applyOp st

/-- Only non-negative elapsed time is fed to `advanceClock`. -/
def OpNonneg : Op → Prop
  | Op.tick dt => 0 ≤ dt
  | _ => True

/-- `f"{x:02}"` for a (non-negative, in every use here) Python int: the
decimal rendering, zero-padded on the left to a minimum width of 2. -/
def pad2 (x : Int) : String :=
  if x < 10 then "0" ++ toString x else toString x

/-- `format_hhmmss` from PomodoroCore.py: clamp to 0, then split into hours,
minutes and seconds and render `f"{h:02}:{m:02}:{s:02}"`. -/
def format_hhmmss (secs : Int) : String :=
  let s := max 0 secs
  let h := s / 3600
  let m := (s % 3600) / 60
  let sec := s % 60
  pad2 h ++ ":" ++ pad2 m ++ ":" ++ pad2 sec

/-- The spec's wording of `formatDuration` applied to the clamped value
`max 0 s` (a non-negative integer `n`): two-digit hours `n / 3600`, minutes
`n % 3600 / 60`, seconds `n % 60`, each zero-padded to width 2 and joined by
colons. -/
def formatDurationSpec (n : Nat) : String :=
  pad2 ((n / 3600 : Nat) : Int) ++ ":" ++ pad2 ((n % 3600 / 60 : Nat) : Int)
    ++ ":" ++ pad2 ((n % 60 : Nat) : Int)

/-- The session kind started by `Pomodoro.session_real_time(rotation)` in
src/pomodoro.py: `rotation % 2 == 0` starts the work countdown
(`WORK_SECS`), otherwise `rotation == 5` starts the long-break countdown
(`LONG_BREAK_SECS`), otherwise the short-break countdown
(`SHORT_BREAK_SECS`). -/
def sessionRealTimeKind (rotation : Nat) : Mode :=
  if rotation % 2 = 0 then Mode.WORK
  else if rotation = 5 then Mode.LONG_BREAK
  else Mode.SHORT_BREAK

/-- The session name returned by `Pomodoro.which_rotation(rotation)` in
src/pomodoro.py, as a kind: `rotation % 2 == 0` names "Work session",
otherwise `rotation % 6 == 5` names "Long break session", otherwise
"Short break session". -/
def whichRotationKind (rotation : Nat) : Mode :=
  if rotation % 2 = 0 then Mode.WORK
  else if rotation % 6 = 5 then Mode.LONG_BREAK
  else Mode.SHORT_BREAK

/-- The construction parameters are positive, as the spec's constructor
contract demands of `work_seconds`, `short_break_seconds` and
`long_break_seconds`. -/
def GoodDurations (st : EngineState) : Prop :=
  0 < st.work_secs ∧ 0 < st.short_break_secs ∧ 0 < st.long_break_secs

/-- The countdown invariant: positive durations and a non-negative
remaining-seconds counter. -/
def EngineInv (st : EngineState) : Prop :=
  GoodDurations st ∧ 0 ≤ st.remaining

/-- The four-periodic kind sequence the spec's rotation-cadence property
expects from repeated `skip()` with `long_break_every = 2`: WORK,
SHORT_BREAK, WORK, LONG_BREAK. -/
def cadencePattern (r : Nat) : Mode :=
  if r = 0 then Mode.WORK
  else if r = 1 then Mode.SHORT_BREAK
  else if r = 2 then Mode.WORK
  else Mode.LONG_BREAK

/-! ## Helper lemmas -/

/-- `_advance_session` writes only `mode`, `remaining` and
`work_sessions_done`: the paused flag is untouched. -/
theorem advance_session_paused (st : EngineState) :
    (advance_session st).paused = st.paused := by
  simp only [advance_session]
  split_ifs <;> rfl

/-- `_advance_session` leaves the fractional accumulator untouched. -/
theorem advance_session_acc (st : EngineState) :
    (advance_session st).acc = st.acc := by
  simp only [advance_session]
  split_ifs <;> rfl

/-- `_advance_session` never changes the configured work duration. -/
theorem advance_session_work_secs (st : EngineState) :
    (advance_session st).work_secs = st.work_secs := by
  simp only [advance_session]
  split_ifs <;> rfl

theorem stepSecond_work_secs (st : EngineState) :
    (stepSecond st).work_secs = st.work_secs := by
  simp only [stepSecond]
  split_ifs
  · rfl
  · exact advance_session_work_secs st

theorem tickSteps_work_secs : ∀ (n : Nat) (st : EngineState),
    (tickSteps n st).work_secs = st.work_secs
  | 0, _ => rfl
  | n + 1, st => (tickSteps_work_secs n _).trans (stepSecond_work_secs st)

theorem applyOp_work_secs (st : EngineState) (op : Op) :
    (applyOp st op).work_secs = st.work_secs := by
  cases op with
  | reset => rfl
  | start => rfl
  | toggle_pause => rfl
  | skip => exact advance_session_work_secs st
  | tick d =>
    show (tick st d).work_secs = st.work_secs
    by_cases hp : st.paused
    · simp [tick, hp]
    · simp only [tick, hp]
      simp only [Bool.false_eq_true, if_false]
      exact tickSteps_work_secs _ st

theorem run_work_secs : ∀ (ops : List Op) (st : EngineState),
    (run st ops).work_secs = st.work_secs
  | [], _ => rfl
  | op :: ops, st => (run_work_secs ops _).trans (applyOp_work_secs st op)

/-- `_advance_session` keeps the durations positive and loads a positive
duration into `remaining`. -/
theorem advance_session_inv (st : EngineState) (h : GoodDurations st) :
    GoodDurations (advance_session st) ∧ 0 < (advance_session st).remaining := by
  obtain ⟨hw, hs, hl⟩ := h
  simp only [advance_session]
  split_ifs
  · exact ⟨⟨hw, hs, hl⟩, hl⟩
  · exact ⟨⟨hw, hs, hl⟩, hs⟩
  · exact ⟨⟨hw, hs, hl⟩, hw⟩

/-- Consuming one whole second preserves the countdown invariant. -/
theorem stepSecond_inv (st : EngineState) (h : EngineInv st) :
    EngineInv (stepSecond st) := by
  obtain ⟨hgd, hr⟩ := h
  by_cases hpos : st.remaining > 0
  · simp only [stepSecond, hpos, if_true]
    refine ⟨hgd, ?_⟩
    show 0 ≤ st.remaining - 1
    omega
  · simp only [stepSecond, hpos, if_false]
    obtain ⟨h1, h2⟩ := advance_session_inv st hgd
    exact ⟨h1, le_of_lt h2⟩

theorem tickSteps_inv : ∀ (n : Nat) (st : EngineState),
    EngineInv st → EngineInv (tickSteps n st)
  | 0, _, h => h
  | n + 1, st, h => tickSteps_inv n _ (stepSecond_inv st h)

/-- Every engine operation preserves the countdown invariant. -/
theorem applyOp_inv (st : EngineState) (op : Op) (h : EngineInv st) :
    EngineInv (applyOp st op) := by
  obtain ⟨⟨hw, hs, hl⟩, hr⟩ := h
  cases op with
  | reset => exact ⟨⟨hw, hs, hl⟩, le_of_lt hw⟩
  | start => exact ⟨⟨hw, hs, hl⟩, hr⟩
  | toggle_pause => exact ⟨⟨hw, hs, hl⟩, hr⟩
  | skip =>
    obtain ⟨h1, h2⟩ := advance_session_inv st ⟨hw, hs, hl⟩
    exact ⟨h1, le_of_lt h2⟩
  | tick d =>
    show EngineInv (tick st d)
    by_cases hp : st.paused
    · simp only [tick, hp, if_true]
      exact ⟨⟨hw, hs, hl⟩, hr⟩
    · simp only [tick, hp]
      simp only [Bool.false_eq_true, if_false]
      exact tickSteps_inv _ st ⟨⟨hw, hs, hl⟩, hr⟩

theorem run_inv : ∀ (ops : List Op) (st : EngineState),
    EngineInv st → EngineInv (run st ops)
  | [], _, h => h
  | op :: ops, st, h => run_inv ops _ (applyOp_inv st op h)

/-- When the accumulator plus the new delta stays below one whole second the
`while` loop of `tick` does not run: only the accumulator changes. -/
theorem tick_no_consume (st : EngineState) (d : ℚ) (hp : st.paused = false)
    (h0 : 0 ≤ st.acc + d) (h1 : st.acc + d < 1) :
    tick st d = { st with acc := st.acc + d } := by
  have hf : ⌊st.acc + d⌋ = 0 := by
    rw [Int.floor_eq_iff]
    constructor
    · exact_mod_cast h0
    · push_cast
      linarith
  simp [tick, hp, hf, tickSteps]

/-- When the accumulator plus the new delta lands in `[1, 2)` the `while`
loop of `tick` runs exactly once: one second is consumed and the fractional
remainder stays in the accumulator. -/
theorem tick_consume_one (st : EngineState) (d : ℚ) (hp : st.paused = false)
    (h1 : 1 ≤ st.acc + d) (h2 : st.acc + d < 2) :
    tick st d = { stepSecond st with acc := st.acc + d - 1 } := by
  have hf : ⌊st.acc + d⌋ = 1 := by
    rw [Int.floor_eq_iff]
    constructor
    · exact_mod_cast h1
    · push_cast
      linarith
  simp [tick, hp, hf, tickSteps]

/-! ## Claim theorems -/

/-- C1 (counterexample): constructing the engine with `work_secs = 0` does
not fail — `PomodoroEngine.__init__` performs no validation.  It returns an
engine whose snapshot is (WORK, 0, paused, 0), and that engine is usable:
`skip()` on it advances normally to a short break. -/
theorem construction_zero_work_usable :
    snapshot (mkEngine 0 1 1 4) = ⟨Mode.WORK, 0, true, 0⟩ ∧
      snapshot (skip (mkEngine 0 1 1 4)) = ⟨Mode.SHORT_BREAK, 1, true, 1⟩ :=
  ⟨rfl, rfl⟩

/-- C1 (amended): engine construction is total — for every integer parameter
set (positive or not) it succeeds and produces the reset state with
`remaining = work_secs`; positivity of the four durations is validated only
by `load_config`, whose sanity check rejects `work = 0`. -/
theorem construction_total_config_validates :
    (∀ w s l e : Int, snapshot (mkEngine w s l e) = ⟨Mode.WORK, w, true, 0⟩) ∧
      ¬ config_durations_ok 0 1 1 4 :=
  ⟨fun _ _ _ _ => rfl, by decide⟩

/-- C2: for every engine constructed with positive durations and every finite
sequence of `reset`, `start`, `togglePause`, `skip` and `advanceClock d`
operations with `d ≥ 0`, the state satisfies `remaining_seconds ≥ 0` after
every operation (the sequence below ends at an arbitrary prefix point, so
this covers "after every operation"). -/
theorem remaining_nonneg_after_ops (w s l e : Int)
    (hw : 0 < w) (hs : 0 < s) (hl : 0 < l)
    (ops : List Op) (_hops : ∀ op ∈ ops, OpNonneg op) :
    0 ≤ (run (mkEngine w s l e) ops).remaining :=
  (run_inv ops _ ⟨⟨hw, hs, hl⟩, le_of_lt hw⟩).2

/-- C2 witness: a concrete engine and operation sequence. -/
theorem remaining_nonneg_after_ops_witness :
    0 ≤ (run (mkEngine 10 3 5 4) [Op.start, Op.tick 1, Op.skip]).remaining :=
  remaining_nonneg_after_ops 10 3 5 4 (by decide) (by decide) (by decide) _
    (by
      intro op hop
      simp only [List.mem_cons, List.not_mem_nil, or_false] at hop
      rcases hop with rfl | rfl | rfl
      · exact True.intro
      · exact zero_le_one
      · exact True.intro)

/-- C3: from a running state with an empty fractional accumulator and at
least one second remaining, three successive `advanceClock(0.4)` calls
(total 1.2 s) decrement `remaining_seconds` by exactly one. -/
theorem three_ticks_decrement_once (st : EngineState) (hp : st.paused = false)
    (ha : st.acc = 0) (hr : 1 ≤ st.remaining) :
    (tick (tick (tick st (2/5)) (2/5)) (2/5)).remaining = st.remaining - 1 := by
  have e1 : tick st (2/5) = { st with acc := st.acc + 2/5 } := by
    refine tick_no_consume st (2/5) hp ?_ ?_
    · rw [ha]; norm_num
    · rw [ha]; norm_num
  have e2 : tick { st with acc := st.acc + 2/5 } (2/5) =
      { st with acc := st.acc + 2/5 + 2/5 } := by
    refine tick_no_consume _ (2/5) hp ?_ ?_
    · show (0:ℚ) ≤ st.acc + 2/5 + 2/5
      rw [ha]; norm_num
    · show st.acc + 2/5 + 2/5 < 1
      rw [ha]; norm_num
  have e3 : tick { st with acc := st.acc + 2/5 + 2/5 } (2/5) =
      { stepSecond { st with acc := st.acc + 2/5 + 2/5 } with
          acc := st.acc + 2/5 + 2/5 + 2/5 - 1 } := by
    refine tick_consume_one _ (2/5) hp ?_ ?_
    · show (1:ℚ) ≤ st.acc + 2/5 + 2/5 + 2/5
      rw [ha]; norm_num
    · show st.acc + 2/5 + 2/5 + 2/5 < 2
      rw [ha]; norm_num
  rw [e1, e2, e3]
  have hpos : ({ st with acc := st.acc + 2/5 + 2/5 } : EngineState).remaining > 0 := by
    show st.remaining > 0
    omega
  show (stepSecond { st with acc := st.acc + 2/5 + 2/5 }).remaining = st.remaining - 1
  simp only [stepSecond, hpos, if_true]

/-- C3 witness: the started default test engine loses exactly one of its ten
seconds after three 0.4-second ticks. -/
theorem three_ticks_decrement_once_witness :
    (tick (tick (tick (start (mkEngine 10 3 5 4)) (2/5)) (2/5)) (2/5)).remaining = 9 := by
  rw [three_ticks_decrement_once (start (mkEngine 10 3 5 4)) rfl rfl (by decide)]
  decide

/-- C5: whenever the engine is paused, `advanceClock` is a complete no-op —
the whole state, fractional accumulator included, is unchanged; in
particular this holds right after `togglePause()` while running. -/
theorem tick_paused_noop (st : EngineState) (d : ℚ) :
    (st.paused = true → tick st d = st) ∧
      (st.paused = false → tick (toggle_pause st) d = toggle_pause st) := by
  constructor
  · intro h
    simp [tick, h]
  · intro h
    have hp : (toggle_pause st).paused = true := by
      simp [toggle_pause, h]
    simp [tick, hp]

/-- C5 witness: a freshly constructed engine is paused, and a 5-second tick
leaves it untouched. -/
theorem tick_paused_noop_witness :
    tick (mkEngine 10 3 5 4) 5 = mkEngine 10 3 5 4 :=
  (tick_paused_noop (mkEngine 10 3 5 4) 5).1 rfl

/-! ### Steps of the skip rotation for the cadence configuration
`work_seconds = 2, short_break_seconds = 1, long_break_seconds = 3,
long_break_every = 2` -/

theorem skip_work_to_short (m : Int) (hm : ¬ (m + 1) % 2 = 0) :
    skip ⟨2, 1, 3, 2, Mode.WORK, 2, true, m, 0⟩ =
      ⟨2, 1, 3, 2, Mode.SHORT_BREAK, 1, true, m + 1, 0⟩ := by
  simp [skip, advance_session, hm]

theorem skip_short_to_work (m : Int) :
    skip ⟨2, 1, 3, 2, Mode.SHORT_BREAK, 1, true, m, 0⟩ =
      ⟨2, 1, 3, 2, Mode.WORK, 2, true, m, 0⟩ := rfl

theorem skip_work_to_long (m : Int) (hm : (m + 1) % 2 = 0) :
    skip ⟨2, 1, 3, 2, Mode.WORK, 2, true, m, 0⟩ =
      ⟨2, 1, 3, 2, Mode.LONG_BREAK, 3, true, m + 1, 0⟩ := by
  simp [skip, advance_session, hm]

theorem skip_long_to_work (m : Int) :
    skip ⟨2, 1, 3, 2, Mode.LONG_BREAK, 3, true, m, 0⟩ =
      ⟨2, 1, 3, 2, Mode.WORK, 2, true, m, 0⟩ := rfl

theorem skip_iterate_two (x : EngineState) : skip^[2] x = skip (skip x) := rfl

theorem skip_iterate_three (x : EngineState) :
    skip^[3] x = skip (skip (skip x)) := rfl

/-- After `4·k` skips from the reset state the engine is back at WORK with
`2·k` completed work sessions. -/
theorem skip_iter4 : ∀ k : Nat,
    skip^[4 * k] (mkEngine 2 1 3 2) =
      ⟨2, 1, 3, 2, Mode.WORK, 2, true, 2 * (k : Int), 0⟩
  | 0 => by
    rw [show 4 * 0 = 0 from rfl, Function.iterate_zero_apply]
    simp [mkEngine, reset]
  | k + 1 => by
    have ih := skip_iter4 k
    rw [show 4 * (k + 1) = 4 * k + 1 + 1 + 1 + 1 from by ring,
      Function.iterate_succ_apply', Function.iterate_succ_apply',
      Function.iterate_succ_apply', Function.iterate_succ_apply', ih,
      skip_work_to_short (2 * (k : Int)) (by omega),
      skip_short_to_work,
      skip_work_to_long (2 * (k : Int) + 1) (by omega),
      skip_long_to_work]
    simp only [EngineState.mk.injEq, eq_self_iff_true, true_and, and_true]
    push_cast
    ring

/-- C4: with `work_seconds = 2, short_break_seconds = 1,
long_break_seconds = 3, long_break_every = 2`, repeated `skip()` from the
reset state visits kinds WORK, SHORT_BREAK, WORK, LONG_BREAK periodically
(long break after exactly every 2nd completed work session); moreover every
advance from WORK increments `completed_work_sessions` and loads the chosen
break's duration, and every advance from a break returns to WORK with
`remaining = work_seconds`. -/
theorem skip_rotation_cadence :
    (∀ n : Nat, (skip^[n] (mkEngine 2 1 3 2)).mode = cadencePattern (n % 4)) ∧
      (∀ st : EngineState, st.mode = Mode.WORK →
        (advance_session st).work_sessions_done = st.work_sessions_done + 1 ∧
          (if (st.work_sessions_done + 1) % st.long_break_every = 0 then
            (advance_session st).mode = Mode.LONG_BREAK ∧
              (advance_session st).remaining = st.long_break_secs
          else
            (advance_session st).mode = Mode.SHORT_BREAK ∧
              (advance_session st).remaining = st.short_break_secs)) ∧
      (∀ st : EngineState, st.mode ≠ Mode.WORK →
        (advance_session st).mode = Mode.WORK ∧
          (advance_session st).remaining = st.work_secs) := by
  refine ⟨?_, ?_, ?_⟩
  · intro n
    obtain ⟨q, r, hr4, rfl⟩ : ∃ q r, r < 4 ∧ n = 4 * q + r :=
      ⟨n / 4, n % 4, Nat.mod_lt _ (by norm_num), (Nat.div_add_mod n 4).symm⟩
    have hmod : (4 * q + r) % 4 = r := by omega
    rw [hmod, Nat.add_comm (4 * q) r, Function.iterate_add_apply, skip_iter4 q]
    interval_cases r
    · rfl
    · rw [Function.iterate_one, skip_work_to_short (2 * (q : Int)) (by omega)]
      rfl
    · rw [skip_iterate_two, skip_work_to_short (2 * (q : Int)) (by omega),
        skip_short_to_work]
      rfl
    · rw [skip_iterate_three, skip_work_to_short (2 * (q : Int)) (by omega),
        skip_short_to_work, skip_work_to_long (2 * (q : Int) + 1) (by omega)]
      rfl
  · intro st h
    by_cases hc : (st.work_sessions_done + 1) % st.long_break_every = 0
    · rw [if_pos hc]
      simp [advance_session, h, hc]
    · rw [if_neg hc]
      simp [advance_session, h, hc]
  · intro st h
    simp [advance_session, h]

/-- C4 witness: the third skip lands on the long break, and advancing from a
short break returns to work with the full work duration. -/
theorem skip_rotation_cadence_witness :
    (skip^[3] (mkEngine 2 1 3 2)).mode = Mode.LONG_BREAK ∧
      (advance_session ⟨2, 1, 3, 2, Mode.SHORT_BREAK, 1, true, 1, 0⟩).mode = Mode.WORK ∧
        (advance_session ⟨2, 1, 3, 2, Mode.SHORT_BREAK, 1, true, 1, 0⟩).remaining = 2 :=
  ⟨(skip_rotation_cadence.1 3).trans (by decide),
    skip_rotation_cadence.2.2 ⟨2, 1, 3, 2, Mode.SHORT_BREAK, 1, true, 1, 0⟩ (by decide)⟩

/-- C6: from a running state with `remaining_seconds = 0`, a `skip()` call
and an `advanceClock` call supplying enough elapsed time to trigger the
zero-remaining rotation branch yield the same (kind, remaining) pair — both
paths invoke `_advance_session`. -/
theorem skip_at_zero_equiv (st : EngineState) (d : ℚ) (hp : st.paused = false)
    (hr : st.remaining = 0) (h1 : 1 ≤ st.acc + d) (h2 : st.acc + d < 2) :
    (tick st d).mode = (skip st).mode ∧
      (tick st d).remaining = (skip st).remaining := by
  rw [tick_consume_one st d hp h1 h2]
  have hs : stepSecond st = advance_session st := by
    simp [stepSecond, hr]
  constructor
  · show (stepSecond st).mode = (advance_session st).mode
    rw [hs]
  · show (stepSecond st).remaining = (advance_session st).remaining
    rw [hs]

/-- C6 witness: a depleted running work session reacts identically to `skip`
and to a one-second tick. -/
theorem skip_at_zero_equiv_witness :
    (tick (⟨1, 3, 5, 4, Mode.WORK, 0, false, 0, 0⟩ : EngineState) 1).mode =
        (skip (⟨1, 3, 5, 4, Mode.WORK, 0, false, 0, 0⟩ : EngineState)).mode ∧
      (tick (⟨1, 3, 5, 4, Mode.WORK, 0, false, 0, 0⟩ : EngineState) 1).remaining =
        (skip (⟨1, 3, 5, 4, Mode.WORK, 0, false, 0, 0⟩ : EngineState)).remaining :=
  skip_at_zero_equiv _ 1 rfl rfl (by simp) (by simp [one_lt_two])

/-- C7 (code bug): at rotation index 11, `session_real_time` (which tests
`rotation == 5`) starts a SHORT break while `which_rotation` (which tests
`rotation % 6 == 5`) names the session a LONG break — the terminal variant's
session starter and its session-name function disagree. -/
theorem session_vs_which_rotation_mismatch :
    sessionRealTimeKind 11 = Mode.SHORT_BREAK ∧
      whichRotationKind 11 = Mode.LONG_BREAK ∧
        sessionRealTimeKind 11 ≠ whichRotationKind 11 := by
  decide

/-- C8: from every state, `reset()` followed by `snapshot()` yields
kind = WORK, remaining = work_seconds, paused = true,
completed_work_sessions = 0; in particular after any operation sequence on a
constructed engine, where `work_seconds` is still the construction
parameter. -/
theorem reset_snapshot_spec :
    (∀ st : EngineState, snapshot (reset st) = ⟨Mode.WORK, st.work_secs, true, 0⟩) ∧
      (∀ (w s l e : Int) (ops : List Op),
        snapshot (reset (run (mkEngine w s l e) ops)) = ⟨Mode.WORK, w, true, 0⟩) := by
  constructor
  · intro st
    rfl
  · intro w s l e ops
    have h := run_work_secs ops (mkEngine w s l e)
    show Snapshot.mk Mode.WORK (run (mkEngine w s l e) ops).work_secs true 0 = _
    rw [h]
    rfl

/-- C9: `format_hhmmss` equals the spec's rendering — `max 0 s` split into
hours, minutes and seconds, each zero-padded to width 2 and joined by
colons — and therefore renders every negative input as `00:00:00`. -/
theorem format_hhmmss_spec (s : Int) :
    format_hhmmss s = formatDurationSpec (max 0 s).toNat ∧
      (s < 0 → format_hhmmss s = "00:00:00") := by
  constructor
  · have hm : (0 : Int) ≤ max 0 s := le_max_left 0 s
    show pad2 (max 0 s / 3600) ++ ":" ++ pad2 (max 0 s % 3600 / 60) ++ ":" ++
        pad2 (max 0 s % 60) =
      pad2 (((max 0 s).toNat / 3600 : Nat) : Int) ++ ":" ++
        pad2 (((max 0 s).toNat % 3600 / 60 : Nat) : Int) ++ ":" ++
        pad2 (((max 0 s).toNat % 60 : Nat) : Int)
    push_cast [Int.toNat_of_nonneg hm]
    rfl
  · intro hs
    have h0 : max 0 s = 0 := max_eq_left hs.le
    show pad2 (max 0 s / 3600) ++ ":" ++ pad2 (max 0 s % 3600 / 60) ++ ":" ++
        pad2 (max 0 s % 60) = "00:00:00"
    rw [h0]
    rfl

/-- C9 witness: a negative duration renders as all zeros. -/
theorem format_hhmmss_spec_witness : format_hhmmss (-7) = "00:00:00" :=
  (format_hhmmss_spec (-7)).2 (by decide)

/-- C10: session advance (via `skip` or via the zero-remaining branch of
`advanceClock`) is frame-preserving on the paused flag and on the fractional
accumulator: `_advance_session` writes only `mode`, `remaining` and
`work_sessions_done`; hence skipping while paused stays paused, and
sub-second time accrued before a boundary carries over into the next
session. -/
theorem advance_frame_preserving :
    (∀ st : EngineState,
        (advance_session st).paused = st.paused ∧
          (advance_session st).acc = st.acc ∧
          (skip st).paused = st.paused ∧ (skip st).acc = st.acc) ∧
      (∀ (st : EngineState) (d : ℚ), st.paused = false → st.remaining = 0 →
        1 ≤ st.acc + d → st.acc + d < 2 →
        (tick st d).acc = st.acc + d - 1 ∧
          (tick st d).paused = st.paused ∧
          (tick st d).mode = (advance_session st).mode) := by
  constructor
  · intro st
    exact ⟨advance_session_paused st, advance_session_acc st,
      advance_session_paused st, advance_session_acc st⟩
  · intro st d hp hr h1 h2
    rw [tick_consume_one st d hp h1 h2]
    have hs : stepSecond st = advance_session st := by
      simp [stepSecond, hr]
    refine ⟨rfl, ?_, ?_⟩
    · show (stepSecond st).paused = st.paused
      rw [hs]
      exact advance_session_paused st
    · show (stepSecond st).mode = (advance_session st).mode
      rw [hs]

/-- C10 witness: crossing a session boundary with one accrued second keeps
the engine running and carries the (zero) fractional remainder over. -/
theorem advance_frame_preserving_witness :
    (tick (⟨2, 1, 3, 2, Mode.WORK, 0, false, 0, 0⟩ : EngineState) 1).acc = 0 + 1 - 1 ∧
      (tick (⟨2, 1, 3, 2, Mode.WORK, 0, false, 0, 0⟩ : EngineState) 1).paused = false ∧
        (tick (⟨2, 1, 3, 2, Mode.WORK, 0, false, 0, 0⟩ : EngineState) 1).mode =
          (advance_session ⟨2, 1, 3, 2, Mode.WORK, 0, false, 0, 0⟩).mode :=
  advance_frame_preserving.2 ⟨2, 1, 3, 2, Mode.WORK, 0, false, 0, 0⟩ 1 rfl rfl
    (by simp) (by simp [one_lt_two])

end Pomodoro
